import Mathlib

/-!
# Verification of the yash job-control shell

Shallow embedding of the yash shell (a small POSIX-style job-control shell
written in C) together with proofs about its parser, job table, status
reconciliation, command-string rewriting, and file-redirection logic.

Conventions of the embedding:
* C strings become `String`, the intrusive `next`-pointer linked list of
  jobs becomes `List job_t` (head = list head, append at tail = `add_job`).
* In-place mutation through a `job_t *` pointer obtained from `find_job`
  is modelled by rewriting the first list entry with the matching pgid.
* OS effects (fork, kill, waitpid, tcsetpgrp, printing) are modelled as
  emitted `shell_action`/`redir_event` values; results the OS hands back
  (reaped pids and statuses, the pid returned by fork, success of kill)
  are passed in as explicit parameters.
* The packed `int` status word written by `waitpid` is modelled as a `Nat`
  and decoded with the glibc macro bodies
  (`WIFSTOPPED(s) = ((s & 0xff) == 0x7f)`, `WSTOPSIG(s) = (s >> 8) & 0xff`).
-/

-- ==== CONSTANTS (from the #define block of the source) ==== --

def MAX_ARGS : Nat := 128

def INPUT_REDIRECT : String := "<"
def OUTPUT_REDIRECT : String := ">"
def ERROR_REDIRECT : String := "2>"
def PIPE_TOKEN : String := "|"
def SEND_TO_BACKGROUND : String := "&"

def FOREGROUND : String := "fg"
def BACKGROUND : String := "bg"
def JOBS_COMMAND : String := "jobs"
def FG_JOB_NUM : Int := -1

def SUCCESS : Int := 1
def COMMAND_PROCESSING_ERROR : Int := -1
def FILE_REDIRECTION_ERROR : Int := -1

def EXIT_SUCCESS : Nat := 0

-- Linux signal numbers used by the source (signal.h on x86-64 Linux).
def SIGTSTP : Nat := 20
def SIGSTOP : Nat := 19

-- glibc decoding macros for the waitpid status word.
def wifstopped (status : Nat) : Bool := status % 256 == 127

def wstopsig (status : Nat) : Nat := (status / 256) % 256

-- ==== DATA MODEL (structs of the source) ==== --

inductive job_status where
  | RUNNING
  | STOPPED
  | DONE
deriving DecidableEq, Repr

/-- Model of `process_t`: one invocable program.  The C `argv` is an array of
`MAX_ARGS + 1` pointers written at index `argv_ind`; it is modelled as the
ordered list of `(index, token)` assignments the parser performs. -/
structure process_t where
  argv : List (Int × String) := []
  redirect_input_filename : Option String := none
  redirect_output_filename : Option String := none
  redirect_error_filename : Option String := none
deriving DecidableEq, Repr

/-- Model of `job_t` (C `struct process_group`); all fields zero-initialised by
`memset` (status 0 = RUNNING).  The `next` pointer is replaced by the
position in a `List job_t`. -/
structure job_t where
  pgid : Int := 0
  command : String := ""
  job_number : Int := 0
  background : Bool := false
  status : job_status := job_status.RUNNING
  first_process : Option process_t := none
  second_process : Option process_t := none
deriving DecidableEq, Repr

/-- Result of `process_input`: `SUCCESS` with the filled job, or
`COMMAND_PROCESSING_ERROR` together with the diagnostic printed by the
offending branch. -/
inductive parse_result where
  | ok (job : job_t)
  | error (msg : String)
deriving DecidableEq, Repr

def parse_result.is_error : parse_result → Bool
  | parse_result.ok _ => false
  | parse_result.error _ => true

-- ==== COMMAND LINE PARSING / INTERPRETATION ==== --

/-- Model of `parse_command`: `strtok` with delimiter set `" \t"` — splits on runs of
spaces and tabs and never yields empty tokens. -/
def parse_command (command : String) : List String :=
  (command.split (fun c => c == ' ' || c == '\t')).filter (fun s => !(s == ""))

def msg_input_redirect : String :=
  "Error [process_input]: < needs to be placed between two tokens"
def msg_output_redirect : String :=
  "Error [process_input]: > needs to be placed between two command tokens"
def msg_error_redirect : String :=
  "Error [process_input]: 2> needs to be placed between two command tokens"
def msg_pipe : String :=
  "Error [process_input]: | needs to be placed between two command tokens"
def msg_background : String :=
  "Error [process_input]: & cannot be the only command, and can only be placed at the end of a command"

/-- The `while (ind < tokenized_command_length)` loop of `process_input`.
Arguments mirror the local variables: the unprocessed suffix of the token
array, the absolute index `ind` of its head, the process under
construction, `argv_ind` (incremented once per loop iteration; reset to
`-1` by the `|` branch so that the bottom-of-loop `argv_ind++` makes it 0,
here passed already incremented), the job being filled in, and
`creating_second_process`.  The two-token redirection branches perform the
C `++ind` by consuming the following token as the filename. -/
def process_input_go : List String → Nat → process_t → Int → job_t → Bool → parse_result
  | [], _, proc, _, job, creating_second =>
    if !creating_second then parse_result.ok { job with first_process := some proc }
    else parse_result.ok { job with second_process := some proc }
  | tok :: rest, ind, proc, argv_ind, job, creating_second =>
    if tok = INPUT_REDIRECT then
      -- error when it is the first string of the process or the last string
      match rest with
      | [] => parse_result.error msg_input_redirect
      | fname :: rest2 =>
        if argv_ind = 0 then parse_result.error msg_input_redirect
        else
          process_input_go rest2 (ind + 2)
            { proc with redirect_input_filename := some fname } (argv_ind + 1)
            job creating_second
    else if tok = OUTPUT_REDIRECT then
      match rest with
      | [] => parse_result.error msg_output_redirect
      | fname :: rest2 =>
        if argv_ind = 0 then parse_result.error msg_output_redirect
        else
          process_input_go rest2 (ind + 2)
            { proc with redirect_output_filename := some fname } (argv_ind + 1)
            job creating_second
    else if tok = ERROR_REDIRECT then
      match rest with
      | [] => parse_result.error msg_error_redirect
      | fname :: rest2 =>
        if argv_ind = 0 then parse_result.error msg_error_redirect
        else
          process_input_go rest2 (ind + 2)
            { proc with redirect_error_filename := some fname } (argv_ind + 1)
            job creating_second
    else if tok = PIPE_TOKEN then
      match rest with
      | [] => parse_result.error msg_pipe
      | _ :: _ =>
        if argv_ind = 0 then parse_result.error msg_pipe
        else
          -- point job first process to this process, start a fresh one
          process_input_go rest (ind + 1) {} 0
            { job with first_process := some proc } true
    else if tok = SEND_TO_BACKGROUND then
      -- error when `&` is the very first token or not the last token
      match rest with
      | [] =>
        if ind = 0 then parse_result.error msg_background
        else
          -- `job->background = 1`; the loop then terminates (this was the
          -- last token) and the closing `if (!creating_second)` runs
          if !creating_second then
            parse_result.ok { job with background := true, first_process := some proc }
          else
            parse_result.ok { job with background := true, second_process := some proc }
      | _ :: _ => parse_result.error msg_background
    else
      process_input_go rest (ind + 1)
        { proc with argv := proc.argv ++ [(argv_ind, tok)] } (argv_ind + 1)
        job creating_second

/-- Model of `process_input`: the caller (`main`) hands in a zero-initialised job
with only `command` set; the loop starts with a fresh `process_t`, index 0
and `creating_second_process = 0`.  The closing `if (!creating_second)`
stores the current process as first or second process. -/
def process_input (tokenized_command : List String) (job : job_t) : parse_result :=
  process_input_go tokenized_command 0 {} 0 job false

-- ==== JOB DATA STRUCTURE FUNCTIONS ==== --

/-- Model of `add_job`: append at the tail of the intrusive list. -/
def add_job (table : List job_t) (job : job_t) : List job_t :=
  table ++ [job]

/-- Model of `find_job`: linear scan for the first node with the given pgid. -/
def find_job (table : List job_t) (pgid : Int) : Option job_t :=
  table.find? (fun j => j.pgid == pgid)

/-- Model of `remove_job(pgid, fg_free)`: unlink the first node with the given pgid
(the `fg_free` flag only controls whether the C node is `free`d, which has
no observable counterpart here). -/
def remove_job : List job_t → Int → List job_t
  | [], _ => []
  | curr :: rest, pgid =>
    if curr.pgid == pgid then rest else curr :: remove_job rest pgid

/-- In-place mutation of the node `find_job` located, through its pointer:
rewrite the first entry with the matching pgid. -/
def set_job : List job_t → Int → (job_t → job_t) → List job_t
  | [], _, _ => []
  | curr :: rest, pgid, f =>
    if curr.pgid == pgid then f curr :: rest else curr :: set_job rest pgid f

/-- Model of `remove_done_jobs`: drop (and free) every node whose status is DONE. -/
def remove_done_jobs (table : List job_t) : List job_t :=
  table.filter (fun j => !(j.status == job_status.DONE))

/-- Model of `find_most_recent_job_num`: fold over the list keeping the largest
`job_number` among background jobs, starting from 0. -/
def find_most_recent_job_num (table : List job_t) : Int :=
  table.foldl
    (fun recent_job_num curr =>
      if curr.job_number > recent_job_num ∧ curr.background then curr.job_number
      else recent_job_num)
    0

/-- Model of `find_next_job_to_fg`: walk the list keeping the last node whose status
is not DONE. -/
def find_next_job_to_fg (table : List job_t) : Option job_t :=
  table.foldl
    (fun job_to_continue curr =>
      if curr.status ≠ job_status.DONE then some curr else job_to_continue)
    none

/-- Model of `find_next_job_to_bg`: walk the list keeping the last stopped
background node. -/
def find_next_job_to_bg (table : List job_t) : Option job_t :=
  table.foldl
    (fun job_to_continue curr =>
      if curr.background ∧ curr.status = job_status.STOPPED then some curr
      else job_to_continue)
    none

-- ==== JOB/PROCESS UPDATE FUNCTIONS ==== --

/-- Model of `update_job_status(status, pid)`: reconcile one `waitpid` result with
the job table.  Returns the new table and the C `int` return value as a
Bool (`1` = made progress / keep looping, `0` = stop). -/
def update_job_status (table : List job_t) (status : Nat) (pid : Int) :
    List job_t × Bool :=
  if pid ≤ 0 then
    -- pid < 0 is an error, pid == 0 means WNOHANG and nothing terminated
    (table, false)
  else
    match find_job table pid with
    | none => (table, true)   -- job NOT found
    | some job =>
      if wifstopped status then
        if wstopsig status = SIGTSTP ∨ wstopsig status = SIGSTOP then
          if job.job_number = FG_JOB_NUM then
            -- transition the foreground job into the background:
            -- unlink it, give it a fresh background number, re-append it
            let table1 := remove_job table pid
            (add_job table1
              { job with status := job_status.STOPPED, background := true,
                         job_number := find_most_recent_job_num table1 + 1 },
             true)
          else
            (set_job table pid
              (fun j => { j with status := job_status.STOPPED, background := true }),
             true)
        else
          (set_job table pid (fun j => { j with status := job_status.STOPPED }), true)
      else
        -- terminated normally or abnormally: mark it DONE
        (set_job table pid (fun j => { j with status := job_status.DONE }), true)

/-- Model of `update_job_table_statuses`: the non-blocking drain loop
`do { pid = waitpid(-1, &status, WNOHANG | WUNTRACED); } while (update_job_status(status, pid))`.
The successive `(status, pid)` results `waitpid` hands back are passed in
as a list; the loop also stops once `update_job_status` reports no
progress (an empty remainder corresponds to the terminal `pid <= 0`
result). -/
def update_job_table_statuses (table : List job_t) :
    List (Nat × Int) → List job_t
  | [] => table
  | (status, pid) :: rest =>
    let r := update_job_status table status pid
    if r.2 then update_job_table_statuses r.1 rest else r.1

/-- Model of `update_job_command_str(job, apply_bg)` on the command string itself:
append `" &"` (unless the string already ends in `'&'` preceded by `' '`),
or strip that suffix by overwriting the last two bytes with `'\0'`. -/
def ends_with_bg_suffix (command : String) : Bool :=
  match command.data.reverse with
  | c1 :: c2 :: _ => c1 == '&' && c2 == ' '
  | _ => false

def update_job_command_str (command : String) (apply_bg : Bool) : String :=
  if apply_bg then
    if ends_with_bg_suffix command then
      command   -- suffix already included, no update required
    else
      command ++ " &"
  else
    if ends_with_bg_suffix command then
      -- remove the background job suffix via null termination
      String.mk (command.data.take (command.data.length - 2))
    else
      command   -- suffix not present, no need for removal

-- ==== FILE REDIRECTION ==== --

def strerror_ENOENT : String := "No such file or directory"

/-- The `sprintf` in `print_file_redirection_error_str`. -/
def print_file_redirection_error_str (filename : String) : String :=
  "-yash: " ++ filename ++ ": No such file or directory"

/-- Model of `perror(s)` writes `s`, `": "` and `strerror(errno)` to stderr; after a
failed `open` of a missing file `errno` is `ENOENT`.  (The trailing newline
`perror` emits is left implicit: both compared forms are single lines.) -/
def perror_line (s : String) : String := s ++ ": " ++ strerror_ENOENT

/-- The full line `print_file_redirection_error_str` actually puts on
stderr for a missing file. -/
def redirection_error_stderr_line (filename : String) : String :=
  perror_line (print_file_redirection_error_str filename)

inductive open_flags where
  | o_rdonly                 -- O_RDONLY
  | o_creat_wronly_trunc     -- O_CREAT | O_WRONLY | O_TRUNC, mode 0664
deriving DecidableEq, Repr

/-- Syscall/diagnostic trace of `apply_file_redirects`.  `openFile` records
the filename, the flags and whether the `open` succeeded;
`printRedirDiag f` stands for `print_file_redirection_error_str(f)`. -/
inductive redir_event where
  | openFile (filename : String) (flags : open_flags) (ok : Bool)
  | printRedirDiag (filename : String)
  | dupToStderr
  | dupToStdin
  | dupToStdout
  | closeFd
  | nukeAllFileDescriptors
deriving DecidableEq, Repr

/-- Model of `apply_file_redirects`: the three if-blocks in source order (error,
input, output), each `open` followed by `dup2` onto the standard
descriptor and `close`; a failed `open` sets `status = -1` and prints the
diagnostic but the walk continues.  Only at the very end, if any open
failed, are the standard descriptors nuked and the error returned.
Whether an `open(f, ...)` succeeds is supplied by the oracle `openOk`. -/
def apply_file_redirects (process : process_t) (openOk : String → Bool) :
    List redir_event × Int :=
  let (ev1, s1) :=
    match process.redirect_error_filename with
    | none => (([] : List redir_event), (0 : Int))
    | some f =>
      let ok := openOk f
      (redir_event.openFile f open_flags.o_creat_wronly_trunc ok ::
         ((if ok then [] else [redir_event.printRedirDiag f]) ++
          [redir_event.dupToStderr, redir_event.closeFd]),
       if ok then 0 else -1)
  let (ev2, s2) :=
    match process.redirect_input_filename with
    | none => (([] : List redir_event), s1)
    | some f =>
      let ok := openOk f
      (redir_event.openFile f open_flags.o_rdonly ok ::
         ((if ok then [] else [redir_event.printRedirDiag f]) ++
          [redir_event.dupToStdin, redir_event.closeFd]),
       if ok then s1 else -1)
  let (ev3, s3) :=
    match process.redirect_output_filename with
    | none => (([] : List redir_event), s2)
    | some f =>
      let ok := openOk f
      (redir_event.openFile f open_flags.o_creat_wronly_trunc ok ::
         ((if ok then [] else [redir_event.printRedirDiag f]) ++
          [redir_event.dupToStdout, redir_event.closeFd]),
       if ok then s2 else -1)
  let evs := ev1 ++ ev2 ++ ev3
  if s3 = -1 then
    (evs ++ [redir_event.nukeAllFileDescriptors], FILE_REDIRECTION_ERROR)
  else
    (evs, SUCCESS)

-- ==== LAUNCHING, BUILT-INS AND THE PROMPT LOOP ==== --

/-- Observable OS/terminal effects of the launcher and the built-ins.
`printJob` records the arguments of the C `print_job` call (with the
command string already holding any `fg`/`bg` rewrite); `foregroundWait`
stands for `execute_in_foreground` (tcsetpgrp + blocking waitpid loop),
whose table updates are driven by later reaped events. -/
inductive shell_action where
  | printJob (command : String) (is_most_recent_job : Bool)
      (custom_command : Bool) (command_is_fg : Bool)
  | printJobTable (print_running_jobs print_stopped_jobs print_done_jobs : Bool)
  | printParseDiag (msg : String)
  | launch (job : job_t)
  | sendSigcont (pgid : Int)
  | foregroundWait (pgid : Int)
deriving DecidableEq, Repr

/-- Model of `continue_background_job(job, fg)`: send SIGCONT to the process group;
on `kill` failure mark the job STOPPED and return, otherwise wait in the
foreground when `fg` is set.  `killOk` is the OS's answer to `kill`. -/
def continue_background_job (table : List job_t) (pgid : Int) (fg : Bool)
    (killOk : Bool) : List job_t × List shell_action :=
  if !killOk then
    (set_job table pgid (fun j => { j with status := job_status.STOPPED }),
     [shell_action.sendSigcont pgid])
  else if fg then
    (table, [shell_action.sendSigcont pgid, shell_action.foregroundWait pgid])
  else
    (table, [shell_action.sendSigcont pgid])

/-- Model of `execute_fg`: drain, pick `find_next_job_to_fg`, `NULL` means no-op;
otherwise strip the `" &"` suffix, mark the node RUNNING and foreground,
print the bare command, and resume the group in the foreground. -/
def execute_fg (table : List job_t) (reaped : List (Nat × Int))
    (killOk : Bool) : List job_t × List shell_action :=
  let t := update_job_table_statuses table reaped
  match find_next_job_to_fg t with
  | none => (t, [])
  | some fg_job =>
    let cmd := update_job_command_str fg_job.command false
    let is_most_recent_job := find_most_recent_job_num t = fg_job.job_number
    let t := set_job t fg_job.pgid
      (fun j => { j with command := cmd, status := job_status.RUNNING,
                         background := false })
    let r := continue_background_job t fg_job.pgid true killOk
    (r.1, shell_action.printJob cmd (decide is_most_recent_job) true true :: r.2)

/-- Model of `execute_bg`: drain, pick `find_next_job_to_bg`, `NULL` means no-op;
otherwise append the `" &"` suffix, mark the node RUNNING (and, as a
sanity check, background), print it in the notify format, and resume the
group without the terminal. -/
def execute_bg (table : List job_t) (reaped : List (Nat × Int))
    (killOk : Bool) : List job_t × List shell_action :=
  let t := update_job_table_statuses table reaped
  match find_next_job_to_bg t with
  | none => (t, [])
  | some bg_job =>
    let cmd := update_job_command_str bg_job.command true
    let is_most_recent_job := find_most_recent_job_num t = bg_job.job_number
    let t := set_job t bg_job.pgid
      (fun j => { j with command := cmd, status := job_status.RUNNING,
                         background := true })
    let r := continue_background_job t bg_job.pgid false killOk
    (r.1, shell_action.printJob cmd (decide is_most_recent_job) true false :: r.2)

/-- Model of `execute_jobs`: drain, print DONE background jobs, prune them, then
print the RUNNING and STOPPED background jobs. -/
def execute_jobs (table : List job_t) (reaped : List (Nat × Int)) :
    List job_t × List shell_action :=
  let t := update_job_table_statuses table reaped
  (remove_done_jobs t,
   [shell_action.printJobTable false false true, shell_action.printJobTable true true false])

/-- Model of `execute_custom_commands`: dispatch on the *raw* command string. -/
def execute_custom_commands (command : String) (table : List job_t)
    (reaped : List (Nat × Int)) (killOk : Bool) :
    Bool × List job_t × List shell_action :=
  if command = FOREGROUND then (true, execute_fg table reaped killOk)
  else if command = BACKGROUND then (true, execute_bg table reaped killOk)
  else if command = JOBS_COMMAND then (true, execute_jobs table reaped)
  else (false, table, [])

/-- Model of `execute_job`: fork (the child pid the OS returns is `newPgid`), record
pgid and RUNNING status, number the job (`FG_JOB_NUM` sentinel for a
foreground job, fresh background number otherwise), append it to the
table, and wait in the foreground unless it is a background job. -/
def execute_job (job : job_t) (table : List job_t) (newPgid : Int) :
    List job_t × List shell_action :=
  let job := { job with pgid := newPgid, status := job_status.RUNNING }
  let job :=
    if job.background then
      { job with job_number := find_most_recent_job_num table + 1 }
    else
      { job with job_number := FG_JOB_NUM }
  let table := add_job table job
  if !job.background then
    (table, [shell_action.launch job, shell_action.foregroundWait newPgid])
  else
    (table, [shell_action.launch job])

/-- Outcome of one iteration of the `while (1)` prompt loop of `main`:
either the process called `exit` (the final table records the jobs still
allocated at that point — `free_job_table` releases them all), or the loop
continues with the new table. -/
inductive shell_step where
  | exited (code : Nat) (table : List job_t)
  | next (table : List job_t) (actions : List shell_action)
deriving DecidableEq, Repr

/-- One iteration of the prompt loop of `main`: drain, read a line
(`input = none` is the EOF the line editor reports on Ctrl-D), tokenize,
dispatch built-ins, parse, launch, drain again, notify DONE jobs and
prune.  `reaped`/`reaped2` are the results of the two drains, `newPgid`
the child pid of a launch, `killOk` the result of a built-in's `kill`. -/
def main_iteration (table : List job_t) (reaped : List (Nat × Int))
    (input : Option String) (reaped2 : List (Nat × Int)) (newPgid : Int)
    (killOk : Bool) : shell_step :=
  let t := update_job_table_statuses table reaped
  match input with
  | none =>
    -- free(command); free_job_table(); exit(EXIT_SUCCESS);
    shell_step.exited EXIT_SUCCESS []
  | some command =>
    let toks := parse_command command
    if toks.length = 0 then
      shell_step.next (remove_done_jobs t)
        [shell_action.printJobTable false false true]
    else
      let custom := execute_custom_commands command t reaped2 killOk
      if custom.1 then
        shell_step.next (remove_done_jobs custom.2.1)
          (custom.2.2 ++ [shell_action.printJobTable false false true])
      else
        match process_input toks { command := command } with
        | parse_result.error msg =>
          shell_step.next (remove_done_jobs t)
            [shell_action.printParseDiag msg, shell_action.printJobTable false false true]
        | parse_result.ok job =>
          let r := execute_job job t newPgid
          let t2 := update_job_table_statuses r.1 reaped2
          shell_step.next (remove_done_jobs t2)
            (r.2 ++ [shell_action.printJobTable false false true])

-- ==== SPECIFICATION-SIDE CHARACTERISATIONS ==== --

/-- The spec's `most_recent_background_number()`: "max of `job_number`
over background jobs; 0 if none" / "max(existing background numbers, 0)". -/
def spec_max_bg_number (table : List job_t) : Int :=
  ((table.filter (fun j => j.background)).map (fun j => j.job_number)).foldr max 0

/-- The spec's `next_job_to_fg()`: "the last (most recently inserted)
non-Done job in the table". -/
def spec_last_non_done (table : List job_t) : Option job_t :=
  table.reverse.find? (fun j => !(j.status == job_status.DONE))

/-- Token sequences in which no `&` immediately follows one of the
redirection operators `<`, `>`, `2>` (an `&` in that position is consumed
by the parser as a redirection *filename*, not as an operator). -/
def no_amp_after_redirect : List String → Bool
  | a :: b :: rest =>
    !(b == SEND_TO_BACKGROUND &&
      (a == INPUT_REDIRECT || a == OUTPUT_REDIRECT || a == ERROR_REDIRECT)) &&
    no_amp_after_redirect (b :: rest)
  | _ => true

/-- Projection of a redirection trace onto the `open` calls it makes. -/
def redir_opens : List redir_event → List (String × open_flags)
  | [] => []
  | redir_event.openFile f fl _ :: rest => (f, fl) :: redir_opens rest
  | _ :: rest => redir_opens rest

/-- Projection of a redirection trace onto the diagnostics it prints. -/
def redir_diags : List redir_event → List String
  | [] => []
  | redir_event.printRedirDiag f :: rest => f :: redir_diags rest
  | _ :: rest => redir_diags rest

/-- The redirection filenames of a process spec in the order
`apply_file_redirects` visits them: error, input, output. -/
def redir_filenames (process : process_t) : List String :=
  process.redirect_error_filename.toList ++
  process.redirect_input_filename.toList ++
  process.redirect_output_filename.toList

-- ==== HELPER LEMMAS ==== --

theorem spec_max_bg_number_cons (j : job_t) (rest : List job_t) :
    spec_max_bg_number (j :: rest) =
      if j.background then max j.job_number (spec_max_bg_number rest)
      else spec_max_bg_number rest := by
  cases hb : j.background <;> simp [spec_max_bg_number, hb]

theorem spec_max_bg_number_nonneg (t : List job_t) : 0 ≤ spec_max_bg_number t := by
  induction t with
  | nil => simp [spec_max_bg_number]
  | cons j rest ih =>
    rw [spec_max_bg_number_cons]
    cases hb : j.background
    · simpa using ih
    · simp only [if_pos rfl]
      exact le_trans ih (le_max_right _ _)

theorem find_most_recent_aux :
    ∀ (t : List job_t) (r : Int), 0 ≤ r →
      t.foldl
        (fun recent_job_num curr =>
          if curr.job_number > recent_job_num ∧ curr.background then curr.job_number
          else recent_job_num) r
      = max r (spec_max_bg_number t)
  | [], r, hr => by
    simp [spec_max_bg_number]
    omega
  | j :: rest, r, hr => by
    rw [List.foldl_cons, spec_max_bg_number_cons]
    cases hb : j.background
    · simp only [hb, Bool.false_eq_true, and_false, if_false]
      exact find_most_recent_aux rest r hr
    · simp only [eq_self_iff_true, and_true, if_true]
      have step :
          (if j.job_number > r then j.job_number else r) = max r j.job_number := by
        by_cases hgt : j.job_number > r
        · rw [if_pos hgt, max_eq_right (le_of_lt hgt)]
        · rw [if_neg hgt, max_eq_left (by omega)]
      rw [step,
        find_most_recent_aux rest (max r j.job_number)
          (le_trans hr (le_max_left _ _)),
        max_assoc]

/-- The code's `find_most_recent_job_num` computes the spec's
"max(existing background numbers, 0)". -/
theorem find_most_recent_eq_spec (t : List job_t) :
    find_most_recent_job_num t = spec_max_bg_number t := by
  rw [find_most_recent_job_num, find_most_recent_aux t 0 le_rfl]
  exact max_eq_right (spec_max_bg_number_nonneg t)

theorem ends_with_bg_suffix_append_amp (s : String) :
    ends_with_bg_suffix (s ++ " &") = true := by
  simp [ends_with_bg_suffix, String.data_append,
    show (" &").data = [' ', '&'] from rfl]

-- ==== CLAIM THEOREMS ==== --

/-- C2: `update_job_status` reconciliation rules.  With `pid ≤ 0` nothing
changes and no progress is reported; a stop by SIGTSTP/SIGSTOP of the job
holding the foreground sentinel number marks it background, removes it and
re-appends it at the tail numbered max(existing background numbers, 0)+1;
a non-stop status marks the matched job DONE. -/
theorem update_job_status_reconcile_rules (t : List job_t) (s : Nat) (pid : Int) :
    (pid ≤ 0 → update_job_status t s pid = (t, false)) ∧
    (∀ j, 0 < pid → find_job t pid = some j → wifstopped s = true →
      (wstopsig s = SIGTSTP ∨ wstopsig s = SIGSTOP) → j.job_number = FG_JOB_NUM →
      update_job_status t s pid =
        (remove_job t pid ++
          [{ j with status := job_status.STOPPED, background := true,
                    job_number := spec_max_bg_number (remove_job t pid) + 1 }],
         true)) ∧
    (∀ j, 0 < pid → find_job t pid = some j → wifstopped s = false →
      update_job_status t s pid =
        (set_job t pid (fun x => { x with status := job_status.DONE }), true)) := by
  refine ⟨fun h => by simp [update_job_status, h], ?_, ?_⟩
  · intro j hpid hfind hst hsig hfg
    have hnle : ¬ pid ≤ 0 := not_le.mpr hpid
    rcases hsig with hsig | hsig <;>
      simp [update_job_status, hnle, hfind, hst, hsig, hfg, add_job,
        find_most_recent_eq_spec]
  · intro j hpid hfind hst
    have hnle : ¬ pid ≤ 0 := not_le.mpr hpid
    simp [update_job_status, hnle, hfind, hst]

theorem update_job_status_reconcile_rules_witness :
    ((-1 : Int) ≤ 0) ∧ update_job_status [] 0 (-1) = ([], false) :=
  ⟨by decide, (update_job_status_reconcile_rules [] 0 (-1)).1 (by decide)⟩

/-- C3: appending the background suffix and then stripping it restores the
command string byte-for-byte whenever the string did not already end in
`" &"`. -/
theorem update_job_command_str_roundtrip (s : String)
    (h : ends_with_bg_suffix s = false) :
    update_job_command_str (update_job_command_str s true) false = s := by
  have h1 : update_job_command_str s true = s ++ " &" := by
    simp [update_job_command_str, h]
  rw [h1, update_job_command_str]
  simp only [ends_with_bg_suffix_append_amp, if_true, if_false, Bool.false_eq_true]
  rw [String.data_append, show (" &").data = [' ', '&'] from rfl]
  have hlen : (s.data ++ [' ', '&']).length - 2 = s.data.length := by simp
  rw [hlen, List.take_left]

theorem update_job_command_str_roundtrip_witness :
    ends_with_bg_suffix "sleep 30" = false ∧
    update_job_command_str (update_job_command_str "sleep 30" true) false
      = "sleep 30" :=
  ⟨by decide, update_job_command_str_roundtrip "sleep 30" (by decide)⟩

/-- C4: what the code actually prints for a failed input redirection of
`missing`: the `sprintf`-formatted message is handed to `perror`, which
appends `": "` and the errno text, so the emitted stderr line carries the
errno text *after* the formatted diagnostic — it is not the bare
`-yash: missing: No such file or directory` line the specification
prescribes. -/
theorem redirection_error_line_appends_errno_text :
    redirection_error_stderr_line "missing" =
      "-yash: missing: No such file or directory: No such file or directory" ∧
    ¬ redirection_error_stderr_line "missing" =
        "-yash: missing: No such file or directory" :=
  ⟨rfl, by decide⟩

/-- C8: end-of-input from the line editor (readline returning NULL) makes
the shell free the whole job table and exit with status `EXIT_SUCCESS`
(0), whatever the table held and whatever the drain had reaped. -/
theorem main_iteration_eof_exits_cleanly (table : List job_t)
    (reaped reaped2 : List (Nat × Int)) (newPgid : Int) (killOk : Bool) :
    main_iteration table reaped none reaped2 newPgid killOk =
      shell_step.exited 0 [] := rfl

/-- C9: a reaped pid > 0 that matches no job leaves the table unchanged
but still reports progress, so the draining loop continues past unknown
children and their statuses are dropped. -/
theorem update_job_status_unknown_pid_progress (t : List job_t) (s : Nat)
    (pid : Int) (rest : List (Nat × Int)) (hpid : 0 < pid)
    (hfind : find_job t pid = none) :
    update_job_status t s pid = (t, true) ∧
    update_job_table_statuses t ((s, pid) :: rest)
      = update_job_table_statuses t rest := by
  have h1 : update_job_status t s pid = (t, true) := by
    simp [update_job_status, not_le.mpr hpid, hfind]
  exact ⟨h1, by simp [update_job_table_statuses, h1]⟩

theorem update_job_status_unknown_pid_progress_witness :
    update_job_status [] 0 1 = ([], true) :=
  (update_job_status_unknown_pid_progress [] 0 1 [] (by decide) (by decide)).1

theorem find_next_fg_aux :
    ∀ (t : List job_t) (acc : Option job_t),
      t.foldl
        (fun job_to_continue curr =>
          if curr.status ≠ job_status.DONE then some curr else job_to_continue)
        acc
      = (t.reverse.find? (fun j => !(j.status == job_status.DONE))).or acc
  | [], acc => by simp
  | j :: rest, acc => by
    rw [List.foldl_cons, find_next_fg_aux rest, List.reverse_cons, List.find?_append]
    cases hfind : rest.reverse.find? (fun j => !(j.status == job_status.DONE))
    · by_cases hs : j.status = job_status.DONE
      · simp [List.find?, hs, Option.or]
      · have hs' : (j.status == job_status.DONE) = false := beq_eq_false_iff_ne.mpr hs
        simp [List.find?, hs, hs', Option.or]
    · simp [Option.or]

/-- The code's `find_next_job_to_fg` returns the spec's "last (most
recently inserted) non-Done job in the table". -/
theorem find_next_job_to_fg_eq_spec (t : List job_t) :
    find_next_job_to_fg t = spec_last_non_done t := by
  rw [find_next_job_to_fg, spec_last_non_done, find_next_fg_aux t none,
    Option.or_none]

/-- C7: after the built-in's drain, `fg` selects exactly the last
(most recently inserted) job whose status is not Done, and when no such
job exists it is a no-op: the job table is left as the drain produced it
and no signal, wait or print happens. -/
theorem execute_fg_picks_last_non_done (t : List job_t)
    (reaped : List (Nat × Int)) (killOk : Bool) :
    find_next_job_to_fg (update_job_table_statuses t reaped)
      = spec_last_non_done (update_job_table_statuses t reaped) ∧
    (find_next_job_to_fg (update_job_table_statuses t reaped) = none →
      execute_fg t reaped killOk = (update_job_table_statuses t reaped, [])) := by
  refine ⟨find_next_job_to_fg_eq_spec _, fun h => ?_⟩
  simp [execute_fg, h]

theorem execute_fg_picks_last_non_done_witness :
    execute_fg [] [] false = ([], []) :=
  (execute_fg_picks_last_non_done [] [] false).2 rfl

theorem redir_opens_append (l₁ l₂ : List redir_event) :
    redir_opens (l₁ ++ l₂) = redir_opens l₁ ++ redir_opens l₂ := by
  induction l₁ with
  | nil => rfl
  | cons e rest ih => cases e <;> simp [redir_opens, ih]

theorem redir_diags_append (l₁ l₂ : List redir_event) :
    redir_diags (l₁ ++ l₂) = redir_diags l₁ ++ redir_diags l₂ := by
  induction l₁ with
  | nil => rfl
  | cons e rest ih => cases e <;> simp [redir_diags, ih]

/-- C5: for every process spec the redirection applier performs its `open`
calls in exactly the order error, input, output, with `O_RDONLY` for the
input file and `O_CREAT | O_WRONLY | O_TRUNC` for the output and error
files — whatever succeeds or fails. -/
theorem apply_file_redirects_order_and_flags (p : process_t)
    (openOk : String → Bool) :
    redir_opens (apply_file_redirects p openOk).1 =
      p.redirect_error_filename.toList.map
        (fun f => (f, open_flags.o_creat_wronly_trunc)) ++
      p.redirect_input_filename.toList.map
        (fun f => (f, open_flags.o_rdonly)) ++
      p.redirect_output_filename.toList.map
        (fun f => (f, open_flags.o_creat_wronly_trunc)) := by
  rcases p with ⟨argv, fin, fout, ferr⟩
  rcases ferr with _ | fe <;> rcases fin with _ | fi <;> rcases fout with _ | fo
  · simp [apply_file_redirects, redir_opens]
  · cases h3 : openOk fo <;>
      simp [apply_file_redirects, redir_opens, redir_opens_append, h3]
  · cases h2 : openOk fi <;>
      simp [apply_file_redirects, redir_opens, redir_opens_append, h2]
  · cases h2 : openOk fi <;> cases h3 : openOk fo <;>
      simp [apply_file_redirects, redir_opens, redir_opens_append, h2, h3]
  · cases h1 : openOk fe <;>
      simp [apply_file_redirects, redir_opens, redir_opens_append, h1]
  · cases h1 : openOk fe <;> cases h3 : openOk fo <;>
      simp [apply_file_redirects, redir_opens, redir_opens_append, h1, h3]
  · cases h1 : openOk fe <;> cases h2 : openOk fi <;>
      simp [apply_file_redirects, redir_opens, redir_opens_append, h1, h2]
  · cases h1 : openOk fe <;> cases h2 : openOk fi <;> cases h3 : openOk fo <;>
      simp [apply_file_redirects, redir_opens, redir_opens_append, h1, h2, h3]

/-- C10: a failed `open` does not abort `apply_file_redirects`: every
remaining redirection of the same process spec is still attempted (one
`open` per set filename, in order), one diagnostic is printed per failing
file, and only after all three blocks have run are the standard
descriptors nuked and `FILE_REDIRECTION_ERROR` returned; with no failure
the result is `SUCCESS` and no nuke happens. -/
theorem apply_file_redirects_continues_after_failure (p : process_t)
    (openOk : String → Bool) :
    redir_diags (apply_file_redirects p openOk).1 =
      (redir_filenames p).filter (fun f => !(openOk f)) ∧
    (redir_opens (apply_file_redirects p openOk).1).map Prod.fst
      = redir_filenames p ∧
    ((redir_filenames p).all (fun f => openOk f) = false →
      (apply_file_redirects p openOk).1.getLast?
          = some redir_event.nukeAllFileDescriptors ∧
      (apply_file_redirects p openOk).2 = FILE_REDIRECTION_ERROR) ∧
    ((redir_filenames p).all (fun f => openOk f) = true →
      (apply_file_redirects p openOk).2 = SUCCESS ∧
      redir_event.nukeAllFileDescriptors ∉ (apply_file_redirects p openOk).1) := by
  rcases p with ⟨argv, fin, fout, ferr⟩
  rcases ferr with _ | fe <;> rcases fin with _ | fi <;> rcases fout with _ | fo
  · simp [apply_file_redirects, redir_filenames, redir_diags, redir_opens,
      SUCCESS, FILE_REDIRECTION_ERROR]
  · cases h3 : openOk fo <;>
      simp [apply_file_redirects, redir_filenames, redir_diags, redir_opens,
        redir_diags_append, redir_opens_append, h3, List.getLast?_concat,
        SUCCESS, FILE_REDIRECTION_ERROR]
  · cases h2 : openOk fi <;>
      simp [apply_file_redirects, redir_filenames, redir_diags, redir_opens,
        redir_diags_append, redir_opens_append, h2, List.getLast?_concat,
        SUCCESS, FILE_REDIRECTION_ERROR]
  · cases h2 : openOk fi <;> cases h3 : openOk fo <;>
      simp [apply_file_redirects, redir_filenames, redir_diags, redir_opens,
        redir_diags_append, redir_opens_append, h2, h3, List.getLast?_concat,
        SUCCESS, FILE_REDIRECTION_ERROR]
  · cases h1 : openOk fe <;>
      simp [apply_file_redirects, redir_filenames, redir_diags, redir_opens,
        redir_diags_append, redir_opens_append, h1, List.getLast?_concat,
        SUCCESS, FILE_REDIRECTION_ERROR]
  · cases h1 : openOk fe <;> cases h3 : openOk fo <;>
      simp [apply_file_redirects, redir_filenames, redir_diags, redir_opens,
        redir_diags_append, redir_opens_append, h1, h3, List.getLast?_concat,
        SUCCESS, FILE_REDIRECTION_ERROR]
  · cases h1 : openOk fe <;> cases h2 : openOk fi <;>
      simp [apply_file_redirects, redir_filenames, redir_diags, redir_opens,
        redir_diags_append, redir_opens_append, h1, h2, List.getLast?_concat,
        SUCCESS, FILE_REDIRECTION_ERROR]
  · cases h1 : openOk fe <;> cases h2 : openOk fi <;> cases h3 : openOk fo <;>
      simp [apply_file_redirects, redir_filenames, redir_diags, redir_opens,
        redir_diags_append, redir_opens_append, h1, h2, h3, List.getLast?_concat,
        SUCCESS, FILE_REDIRECTION_ERROR]

theorem apply_file_redirects_continues_after_failure_witness :
    (["err", "in", "out"].all (fun _ => (false : Bool)) = false) ∧
    ((apply_file_redirects
        { argv := [], redirect_input_filename := some ("in"),
          redirect_output_filename := some ("out"),
          redirect_error_filename := some ("err") }
        (fun _ => false)).1.getLast?
      = some redir_event.nukeAllFileDescriptors ∧
     (apply_file_redirects
        { argv := [], redirect_input_filename := some ("in"),
          redirect_output_filename := some ("out"),
          redirect_error_filename := some ("err") }
        (fun _ => false)).2 = FILE_REDIRECTION_ERROR) :=
  ⟨by decide,
   (apply_file_redirects_continues_after_failure
      { argv := [], redirect_input_filename := some ("in"),
        redirect_output_filename := some ("out"),
        redirect_error_filename := some ("err") }
      (fun _ => false)).2.2.1 (by decide)⟩

theorem no_amp_tail (a : String) (l : List String)
    (h : no_amp_after_redirect (a :: l) = true) :
    no_amp_after_redirect l = true := by
  cases l with
  | nil => rfl
  | cons b l' =>
    simp only [no_amp_after_redirect, Bool.and_eq_true] at h
    exact h.2

theorem no_amp_head_pair (a b : String) (l : List String)
    (h : no_amp_after_redirect (a :: b :: l) = true)
    (ha : a = INPUT_REDIRECT ∨ a = OUTPUT_REDIRECT ∨ a = ERROR_REDIRECT) :
    b ≠ "&" := by
  simp only [no_amp_after_redirect, Bool.and_eq_true] at h
  intro hb
  rcases h with ⟨h1, _⟩
  rcases ha with ha | ha | ha <;>
    simp [ha, hb, INPUT_REDIRECT, OUTPUT_REDIRECT, ERROR_REDIRECT,
      SEND_TO_BACKGROUND] at h1

/-- Per-iteration invariants of the `process_input` loop on successful
parses: the first process slot ends up filled (given the loop invariant
relating it to `creating_second_process`), no `&` that the loop examines
as an operator sits before the last position or at the very start, and
the background flag records exactly whether the final token is `&` —
under the side condition that no `&` is consumed as a redirection
filename. -/
theorem process_input_go_ok_props (toks : List String) (ind : Nat)
    (proc : process_t) (argv_ind : Int) (job : job_t) (cs : Bool) :
    ∀ r, process_input_go toks ind proc argv_ind job cs = parse_result.ok r →
      no_amp_after_redirect toks = true →
      (((cs = true → job.first_process.isSome = true) →
          r.first_process.isSome = true) ∧
       ("&" ∉ toks.dropLast) ∧
       (ind = 0 → toks.head? ≠ some ("&")) ∧
       r.background = (job.background || decide (toks.getLast? = some ("&")))) := by
  induction toks, ind, proc, argv_ind, job, cs using process_input_go.induct with
  | case1 ind proc ai job cs hcs =>
    intro r hok hH
    simp only [process_input_go, hcs, if_true, parse_result.ok.injEq] at hok
    subst hok
    exact ⟨fun _ => rfl, by simp, by simp, by simp⟩
  | case2 ind proc ai job cs hcs =>
    intro r hok hH
    have hcs' : cs = true := by simpa using hcs
    subst hcs'
    simp only [process_input_go, Bool.not_true, Bool.false_eq_true, if_false,
      parse_result.ok.injEq] at hok
    subst hok
    exact ⟨fun h => h rfl, by simp, by simp, by simp⟩
  | case3 ind proc ai job cs =>
    intro r hok hH
    simp [process_input_go] at hok
  | case4 ind proc job cs fname rest2 =>
    intro r hok hH
    simp [process_input_go] at hok
  | case5 ind proc ai job cs fname rest2 hne ih =>
    intro r hok hH
    simp only [process_input_go, eq_self_iff_true, if_true, hne, if_false] at hok
    have hH2 : no_amp_after_redirect rest2 = true :=
      no_amp_tail _ _ (no_amp_tail _ _ hH)
    have hfname : fname ≠ "&" := no_amp_head_pair _ _ _ hH (Or.inl rfl)
    obtain ⟨p1, p2, p3, p4⟩ := ih r hok hH2
    refine ⟨p1, ?_, ?_, ?_⟩
    · cases rest2 with
      | nil => simp [INPUT_REDIRECT]
      | cons b l =>
        simp only [List.dropLast_cons₂, List.mem_cons]
        push_neg
        exact ⟨by decide, fun h => hfname h.symm, p2⟩
    · intro h0
      simp [INPUT_REDIRECT]
    · cases rest2 with
      | nil => simpa [hfname] using p4
      | cons b l => simpa [List.getLast?_cons_cons] using p4
  | case6 ind proc ai job cs h1 =>
    intro r hok hH
    simp [process_input_go, h1] at hok
  | case7 ind proc job cs fname rest2 h1 =>
    intro r hok hH
    simp [process_input_go, h1] at hok
  | case8 ind proc ai job cs fname rest2 hne h1 ih =>
    intro r hok hH
    simp only [process_input_go, h1, eq_self_iff_true, if_true, hne,
      if_false] at hok
    have hH2 : no_amp_after_redirect rest2 = true :=
      no_amp_tail _ _ (no_amp_tail _ _ hH)
    have hfname : fname ≠ "&" := no_amp_head_pair _ _ _ hH (Or.inr (Or.inl rfl))
    obtain ⟨p1, p2, p3, p4⟩ := ih r hok hH2
    refine ⟨p1, ?_, ?_, ?_⟩
    · cases rest2 with
      | nil => simp [OUTPUT_REDIRECT]
      | cons b l =>
        simp only [List.dropLast_cons₂, List.mem_cons]
        push_neg
        exact ⟨by decide, fun h => hfname h.symm, p2⟩
    · intro h0
      simp [OUTPUT_REDIRECT]
    · cases rest2 with
      | nil => simpa [hfname] using p4
      | cons b l => simpa [List.getLast?_cons_cons] using p4
  | case9 ind proc ai job cs h1 h2 =>
    intro r hok hH
    simp [process_input_go, h1, h2] at hok
  | case10 ind proc job cs fname rest2 h1 h2 =>
    intro r hok hH
    simp [process_input_go, h1, h2] at hok
  | case11 ind proc ai job cs fname rest2 hne h1 h2 ih =>
    intro r hok hH
    simp only [process_input_go, h1, h2, eq_self_iff_true, if_true, hne,
      if_false] at hok
    have hH2 : no_amp_after_redirect rest2 = true :=
      no_amp_tail _ _ (no_amp_tail _ _ hH)
    have hfname : fname ≠ "&" := no_amp_head_pair _ _ _ hH (Or.inr (Or.inr rfl))
    obtain ⟨p1, p2, p3, p4⟩ := ih r hok hH2
    refine ⟨p1, ?_, ?_, ?_⟩
    · cases rest2 with
      | nil => simp [ERROR_REDIRECT]
      | cons b l =>
        simp only [List.dropLast_cons₂, List.mem_cons]
        push_neg
        exact ⟨by decide, fun h => hfname h.symm, p2⟩
    · intro h0
      simp [ERROR_REDIRECT]
    · cases rest2 with
      | nil => simpa [hfname] using p4
      | cons b l => simpa [List.getLast?_cons_cons] using p4
  | case12 ind proc ai job cs h1 h2 h3 =>
    intro r hok hH
    simp [process_input_go, h1, h2, h3] at hok
  | case13 ind proc job cs fname rest2 h1 h2 h3 =>
    intro r hok hH
    simp [process_input_go, h1, h2, h3] at hok
  | case14 ind proc ai job cs fname rest2 hne h1 h2 h3 ih =>
    intro r hok hH
    simp only [process_input_go, h1, h2, h3, eq_self_iff_true, if_true, hne,
      if_false] at hok
    have hH2 : no_amp_after_redirect (fname :: rest2) = true := no_amp_tail _ _ hH
    obtain ⟨p1, p2, p3, p4⟩ := ih r hok hH2
    refine ⟨fun _ => p1 (fun _ => rfl), ?_, ?_, ?_⟩
    · simp only [List.dropLast_cons₂, List.mem_cons]
      push_neg
      exact ⟨by decide, p2⟩
    · intro h0
      simp [PIPE_TOKEN]
    · simpa [List.getLast?_cons_cons] using p4
  | case15 proc ai job cs h1 h2 h3 h4 =>
    intro r hok hH
    simp [process_input_go, h1, h2, h3, h4] at hok
  | case16 ind proc ai job cs hind hcs h1 h2 h3 h4 =>
    intro r hok hH
    have hcs' : cs = false := by simpa using hcs
    subst hcs'
    simp only [process_input_go, h1, h2, h3, h4, hind, if_false,
      Bool.not_false, if_true, eq_self_iff_true, parse_result.ok.injEq] at hok
    subst hok
    refine ⟨fun _ => rfl, by simp, fun h0 => absurd h0 hind,
      by simp [SEND_TO_BACKGROUND]⟩
  | case17 ind proc ai job cs hind hcs h1 h2 h3 h4 =>
    intro r hok hH
    have hcs' : cs = true := by simpa using hcs
    subst hcs'
    simp only [process_input_go, h1, h2, h3, h4, hind, if_false,
      Bool.not_true, Bool.false_eq_true, eq_self_iff_true, if_true,
      parse_result.ok.injEq] at hok
    subst hok
    exact ⟨fun h => h rfl, by simp, fun h0 => absurd h0 hind,
      by simp [SEND_TO_BACKGROUND]⟩
  | case18 ind proc ai job cs fname rest2 h1 h2 h3 h4 =>
    intro r hok hH
    simp [process_input_go, h1, h2, h3, h4] at hok
  | case19 tok rest ind proc ai job cs h1 h2 h3 h4 h5 ih =>
    intro r hok hH
    have htok : tok ≠ "&" := h5
    cases rest with
    | nil =>
      simp only [process_input_go, h1, h2, h3, h4, h5, if_false] at hok
      cases cs with
      | false =>
        simp only [Bool.not_false, if_true, parse_result.ok.injEq] at hok
        subst hok
        exact ⟨fun _ => rfl, by simp, fun _ => by simp [htok], by simp [htok]⟩
      | true =>
        simp only [Bool.not_true, Bool.false_eq_true, if_false,
          parse_result.ok.injEq] at hok
        subst hok
        exact ⟨fun h => h rfl, by simp, fun _ => by simp [htok], by simp [htok]⟩
    | cons b l =>
      simp only [process_input_go, h1, h2, h3, h4, h5, if_false] at hok
      have hH2 : no_amp_after_redirect (b :: l) = true := no_amp_tail _ _ hH
      obtain ⟨p1, p2, p3, p4⟩ := ih r hok hH2
      refine ⟨p1, ?_, ?_, ?_⟩
      · simp only [List.dropLast_cons₂, List.mem_cons]
        push_neg
        exact ⟨fun h => htok h.symm, p2⟩
      · intro h0 hc
        exact htok (by simpa using hc)
      · simpa [List.getLast?_cons_cons] using p4

/-- On every successful parse the first process slot of the job is filled
(under the loop invariant that it is already filled once the parser is in
its second process). -/
theorem process_input_go_first_process (toks : List String) (ind : Nat)
    (proc : process_t) (argv_ind : Int) (job : job_t) (cs : Bool) :
    ∀ r, process_input_go toks ind proc argv_ind job cs = parse_result.ok r →
      (cs = true → job.first_process.isSome = true) →
      r.first_process.isSome = true := by
  induction toks, ind, proc, argv_ind, job, cs using process_input_go.induct with
  | case1 ind proc ai job cs hcs =>
    intro r hok hpre
    simp only [process_input_go, hcs, if_true, parse_result.ok.injEq] at hok
    subst hok
    rfl
  | case2 ind proc ai job cs hcs =>
    intro r hok hpre
    have hcs' : cs = true := by simpa using hcs
    subst hcs'
    simp only [process_input_go, Bool.not_true, Bool.false_eq_true, if_false,
      parse_result.ok.injEq] at hok
    subst hok
    exact hpre rfl
  | case3 ind proc ai job cs =>
    intro r hok hpre
    simp [process_input_go] at hok
  | case4 ind proc job cs fname rest2 =>
    intro r hok hpre
    simp [process_input_go] at hok
  | case5 ind proc ai job cs fname rest2 hne ih =>
    intro r hok hpre
    simp only [process_input_go, eq_self_iff_true, if_true, hne, if_false] at hok
    exact ih r hok hpre
  | case6 ind proc ai job cs h1 =>
    intro r hok hpre
    simp [process_input_go, h1] at hok
  | case7 ind proc job cs fname rest2 h1 =>
    intro r hok hpre
    simp [process_input_go, h1] at hok
  | case8 ind proc ai job cs fname rest2 hne h1 ih =>
    intro r hok hpre
    simp only [process_input_go, h1, eq_self_iff_true, if_true, hne,
      if_false] at hok
    exact ih r hok hpre
  | case9 ind proc ai job cs h1 h2 =>
    intro r hok hpre
    simp [process_input_go, h1, h2] at hok
  | case10 ind proc job cs fname rest2 h1 h2 =>
    intro r hok hpre
    simp [process_input_go, h1, h2] at hok
  | case11 ind proc ai job cs fname rest2 hne h1 h2 ih =>
    intro r hok hpre
    simp only [process_input_go, h1, h2, eq_self_iff_true, if_true, hne,
      if_false] at hok
    exact ih r hok hpre
  | case12 ind proc ai job cs h1 h2 h3 =>
    intro r hok hpre
    simp [process_input_go, h1, h2, h3] at hok
  | case13 ind proc job cs fname rest2 h1 h2 h3 =>
    intro r hok hpre
    simp [process_input_go, h1, h2, h3] at hok
  | case14 ind proc ai job cs fname rest2 hne h1 h2 h3 ih =>
    intro r hok hpre
    simp only [process_input_go, h1, h2, h3, eq_self_iff_true, if_true, hne,
      if_false] at hok
    exact ih r hok (fun _ => rfl)
  | case15 proc ai job cs h1 h2 h3 h4 =>
    intro r hok hpre
    simp [process_input_go, h1, h2, h3, h4] at hok
  | case16 ind proc ai job cs hind hcs h1 h2 h3 h4 =>
    intro r hok hpre
    have hcs' : cs = false := by simpa using hcs
    subst hcs'
    simp only [process_input_go, h1, h2, h3, h4, hind, if_false,
      Bool.not_false, if_true, eq_self_iff_true, parse_result.ok.injEq] at hok
    subst hok
    rfl
  | case17 ind proc ai job cs hind hcs h1 h2 h3 h4 =>
    intro r hok hpre
    have hcs' : cs = true := by simpa using hcs
    subst hcs'
    simp only [process_input_go, h1, h2, h3, h4, hind, if_false,
      Bool.not_true, Bool.false_eq_true, eq_self_iff_true, if_true,
      parse_result.ok.injEq] at hok
    subst hok
    exact hpre rfl
  | case18 ind proc ai job cs fname rest2 h1 h2 h3 h4 =>
    intro r hok hpre
    simp [process_input_go, h1, h2, h3, h4] at hok
  | case19 tok rest ind proc ai job cs h1 h2 h3 h4 h5 ih =>
    intro r hok hpre
    cases rest with
    | nil =>
      simp only [process_input_go, h1, h2, h3, h4, h5, if_false] at hok
      cases cs with
      | false =>
        simp only [Bool.not_false, if_true, parse_result.ok.injEq] at hok
        subst hok
        rfl
      | true =>
        simp only [Bool.not_true, Bool.false_eq_true, if_false,
          parse_result.ok.injEq] at hok
        subst hok
        exact hpre rfl
    | cons b l =>
      simp only [process_input_go, h1, h2, h3, h4, h5, if_false] at hok
      exact ih r hok hpre

/-- C1 (counterexample): the token sequence `a | b | c` contains a second
`|` encountered while the second process is already being built, yet
`process_input` succeeds — silently replacing the stored first process
with the middle segment — instead of failing with a parse error. -/
theorem process_input_double_pipe_accepted :
    process_input ["a", "|", "b", "|", "c"] ({} : job_t) =
      parse_result.ok
        { first_process := some { argv := [((0 : Int), "b")] },
          second_process := some { argv := [((0 : Int), "c")] } } := rfl

/-- C1 (amended): a second `|` between two command tokens is accepted (the
first process pointer is overwritten), but every successfully parsed job
still carries at most two process specs and its first process spec is
always present. -/
theorem process_input_ok_first_process_present (toks : List String)
    (job : job_t) (r : job_t)
    (h : process_input toks job = parse_result.ok r) :
    r.first_process.isSome = true :=
  process_input_go_first_process toks 0 {} 0 job false r h
    (fun hc => Bool.noConfusion hc)

theorem process_input_ok_first_process_present_witness :
    process_input ["ls"] ({} : job_t) =
      parse_result.ok ({ first_process := some { argv := [((0 : Int), "ls")] } } : job_t) ∧
    (({ first_process := some { argv := [((0 : Int), "ls")] } } : job_t)).first_process.isSome = true :=
  ⟨rfl, process_input_ok_first_process_present ["ls"] {} _ rfl⟩

/-- C6 (counterexample): in `a < & b` the `&` token sits in a non-final
position (and is not the first token), yet the parser does not reject it:
the `&` is consumed as the input-redirection filename and the parse
succeeds with the background flag clear. -/
theorem process_input_amp_as_filename_accepted :
    process_input ["a", "<", "&", "b"] ({} : job_t) =
      parse_result.ok
        { first_process := some
            { argv := [((0 : Int), "a"), ((2 : Int), "b")],
              redirect_input_filename := some ("&") },
          background := false } := rfl

/-- C6 (amended): when no `&` immediately follows a redirection operator
(so no `&` is consumed as a redirection filename), the parser rejects the
sequence whenever some `&` is the first token or sits before the last
position, and a successful parse sets the background flag exactly when
the final token is `&`. -/
theorem process_input_amp_rules (toks : List String) (job : job_t)
    (hH : no_amp_after_redirect toks = true) (hbg : job.background = false) :
    ((toks.head? = some ("&") ∨ "&" ∈ toks.dropLast) →
      (process_input toks job).is_error = true) ∧
    (∀ r, process_input toks job = parse_result.ok r →
      r.background = decide (toks.getLast? = some ("&"))) := by
  constructor
  · intro hbad
    cases hres : process_input toks job with
    | error m => rfl
    | ok r =>
      obtain ⟨_, p2, p3, p4⟩ :=
        process_input_go_ok_props toks 0 {} 0 job false r hres hH
      rcases hbad with hhead | hmem
      · exact absurd hhead (p3 rfl)
      · exact absurd hmem p2
  · intro r hres
    obtain ⟨_, _, _, p4⟩ :=
      process_input_go_ok_props toks 0 {} 0 job false r hres hH
    rw [p4, hbg, Bool.false_or]

theorem process_input_amp_rules_witness :
    (process_input ["&", "ls"] ({} : job_t)).is_error = true :=
  (process_input_amp_rules ["&", "ls"] {} (by decide) rfl).1 (Or.inl rfl)
